import Mathlib

/-!
Verification of the metadata-driven dispatch pipeline of `rpc-controllers`.

The development shallowly embeds the relevant TypeScript sources:
  * `src/driver/BaseDriver.ts` (`transformResult`, `processJsonError`, `merge`),
  * the alternate `BaseDriver` found in `src/unnamed/part_001`,
  * `src/driver/express/ExpressDriver.ts` (`registerMethod`,
    `getParamFromRequest`, `handleSuccess`),
  * `src/driver/koa/KoaDriver.ts` (`handleSuccess`),
  * `src/metadata/MethodMetadata.ts` (`build`, `buildFullRoute`,
    `buildHeaders`, `appendBaseRoute`),
  * `src/metadata/ControllerMetadata.ts` (`build`).

JavaScript runtime values are modelled by the inductive type `JsVal`;
response-side effects (status/header assignment, body writes, advancing the
middleware chain) are recorded in an effect list, and code paths that throw
are modelled with `Except`.
-/

namespace RpcControllers

/-- Model of a JavaScript runtime value as the drivers consume it.
`handle tag` stands for the framework request/response/context handles
(identity objects the drivers compare against with `===`); `buffer`,
`uint8array` and `stream` stand for binary payloads (`Buffer`,
`Uint8Array`) and stream-like objects owning a `pipe` function. -/
inductive JsVal where
  | undef
  | null
  | bool (b : Bool)
  | num (n : Int)
  | str (s : String)
  | fn (tag : String)
  | handle (tag : String)
  | buffer (bytes : List Nat)
  | uint8array (bytes : List Nat)
  | stream (tag : String)
  | obj (fields : List (String × JsVal))
deriving Repr

/-- JavaScript truthiness: `undefined`, `null`, `false`, `0` and `""` are
falsy, every object (including functions, buffers, streams and handles) is
truthy. -/
def jsTruthy : JsVal → Bool
  | .undef => false
  | .null => false
  | .bool b => b
  | .num n => n != 0
  | .str s => !s.isEmpty
  | _ => true

/-- JavaScript loose comparison `x == null`, true exactly for `null` and
`undefined`. -/
def jsLooseNull : JsVal → Bool
  | .undef => true
  | .null => true
  | _ => false

/-- JavaScript `x instanceof Object`: true for every non-primitive value. -/
def instanceofObject : JsVal → Bool
  | .fn _ => true
  | .handle _ => true
  | .buffer _ => true
  | .uint8array _ => true
  | .stream _ => true
  | .obj _ => true
  | _ => false

/-- JavaScript `x instanceof Uint8Array`; Node `Buffer` extends
`Uint8Array`, so buffers satisfy it as well. -/
def instanceofUint8Array : JsVal → Bool
  | .buffer _ => true
  | .uint8array _ => true
  | _ => false

/-- JavaScript `x instanceof Buffer`. -/
def instanceofBuffer : JsVal → Bool
  | .buffer _ => true
  | _ => false

/-- JavaScript `typeof x === "object"`: true for plain objects, `null`,
buffers, typed arrays, streams and handles; false for functions and
primitives. -/
def jsTypeofObject : JsVal → Bool
  | .null => true
  | .handle _ => true
  | .buffer _ => true
  | .uint8array _ => true
  | .stream _ => true
  | .obj _ => true
  | _ => false

/-- Whether the value is a function (for `x instanceof Function`). -/
def isFunction : JsVal → Bool
  | .fn _ => true
  | _ => false

def isUndef : JsVal → Bool
  | .undef => true
  | _ => false

def isNull : JsVal → Bool
  | .null => true
  | _ => false

/-- Property read `v[k]` / `v.k`.  Reading a property of `null` or
`undefined` throws a `TypeError`; objects look the key up among their
fields (absent keys read as `undefined`); stream-like objects expose their
`pipe` function; property reads on other primitives yield `undefined`. -/
def getProp : JsVal → String → Except String JsVal
  | .undef, k => .error ("TypeError: Cannot read property " ++ k ++ " of undefined")
  | .null, k => .error ("TypeError: Cannot read property " ++ k ++ " of null")
  | .obj fs, k => .ok (((fs.find? (fun kv => kv.1 == k)).map (fun kv => kv.2)).getD .undef)
  | .stream _, k => .ok (if k == "pipe" then .fn "pipe" else .undef)
  | _, _ => .ok (.undef)

/-- Total property read, used only where the source has already
established that the value is not nullish. -/
def jsGetD (v : JsVal) (k : String) : JsVal :=
  match v with
  | .obj fs => ((fs.find? (fun kv => kv.1 == k)).map (fun kv => kv.2)).getD .undef
  | .stream _ => if k == "pipe" then .fn "pipe" else .undef
  | _ => (.undef)

/-- Property assignment `o[k] = v` on an object's field list: an existing
key is overwritten in place (JavaScript objects keep the original
insertion position), a new key is appended. -/
def setField : List (String × JsVal) → String → JsVal → List (String × JsVal)
  | [], k, v => [(k, v)]
  | (k', v') :: rest, k, v =>
      if k' == k then (k, v) :: rest else (k', v') :: setField rest k v

/-- Enumerable own entries, as iterated by `for (let i in o)`.  Only plain
objects are enumerated here; the envelope/merge pipeline never iterates a
primitive (iterating a string, which JavaScript would enumerate by index,
is not exercised by any modelled call site). -/
def enumEntries : JsVal → List (String × JsVal)
  | .obj fs => fs
  | _ => []

/-- The `in` operator `k in o` restricted to objects.  JavaScript throws a
`TypeError` when the right operand is a primitive; the modelled call sites
only reach this test with object operands. -/
def hasKeyB (v : JsVal) (k : String) : Bool :=
  match v with
  | .obj fs => fs.any (fun kv => kv.1 == k)
  | _ => false

/-- The second `for (let i in obj2)` loop of `merge`: assigns every entry
of `obj2` into the accumulated result. -/
def mergePhase2 (init : List (String × JsVal)) (o2 : JsVal) : List (String × JsVal) :=
  (enumEntries o2).foldl (fun r kv => setField r kv.1 kv.2) init

mutual

/-- `BaseDriver.merge(obj1, obj2)` from `src/driver/BaseDriver.ts`
(lines 167-180; the copy in `src/unnamed/part_001` lines 160-173 is
identical).  First loop: every key of `obj1` is copied into `result`,
recursing when the key is also in `obj2` and `obj1[i]` has object type
(the source's third conjunct `i !== null` compares the string key and is
always true).  Second loop: every key of `obj2` is assigned into
`result`, overwriting whatever the first loop stored there. -/
def mergeVal : JsVal → JsVal → JsVal
  | .obj fs, o2 => .obj (mergePhase2 (mergeFields fs o2) o2)
  | _, o2 => .obj (mergePhase2 [] o2)

/-- The first `for (let i in obj1)` loop of `merge`. -/
def mergeFields : List (String × JsVal) → JsVal → List (String × JsVal)
  | [], _ => []
  | (k, v) :: rest, o2 =>
      (k, if hasKeyB o2 k && jsTypeofObject v then mergeVal v (jsGetD o2 k) else v)
        :: mergeFields rest o2

end

/-- Entry point matching the source signature `merge(obj1, obj2)`. -/
def merge (obj1 obj2 : JsVal) : JsVal :=
  mergeVal obj1 obj2

mutual

/-- Follows the spec's words (§4.3): "recursively merge matching
object-valued keys, otherwise right side wins — the override wins on
scalar conflicts", with keys present only in `obj1` preserved.  Stated as
a second definition to compare the source's `merge` against. -/
def specMergeVal : JsVal → JsVal → JsVal
  | .obj fs, o2 =>
      .obj (specMergeFields fs o2 ++
        (enumEntries o2).filter (fun kv => !(fs.any (fun kv' => kv'.1 == kv.1))))
  | _, o2 => o2

/-- Per-key case of the spec's merge policy, over the keys of `obj1`. -/
def specMergeFields : List (String × JsVal) → JsVal → List (String × JsVal)
  | [], _ => []
  | (k, v) :: rest, o2 =>
      (k, if hasKeyB o2 k then
            (match v, jsGetD o2 k with
             | .obj fs1, .obj fs2 => specMergeVal (.obj fs1) (.obj fs2)
             | _, _ => jsGetD o2 k)
          else v)
        :: specMergeFields rest o2

end

/-- Reads a nested path of keys, `undefined` when absent. -/
def getPath : JsVal → List String → JsVal
  | v, [] => v
  | v, k :: ks => getPath (jsGetD v k) ks

/-- A route fragment: either a literal string or a `RegExp` given by its
source and flags (`name: string | RegExp` in `MethodMetadata`). -/
inductive Route where
  | str (s : String)
  | pattern (source flags : String)
deriving DecidableEq, Repr

/-- JavaScript `RegExp.prototype.toString()`: the slash-delimited literal
`"/" + source + "/" + flags`. -/
def regexToString (source flags : String) : String :=
  "/" ++ source ++ "/" ++ flags

/-- JavaScript `s.substr(1)`: the string without its first character. -/
def substrOne (s : String) : String :=
  String.mk (s.data.drop 1)

/-- The local `prefix` of `MethodMetadata.appendBaseRoute`:
`baseRoute.length > 0 && baseRoute.indexOf("/") < 0 ? "/" : ""` prepended
to `baseRoute`. -/
def normalizedBase (baseRoute : String) : String :=
  (if baseRoute.length > 0 && !(baseRoute.data.contains '/') then "/" else "") ++ baseRoute

/-- `MethodMetadata.appendBaseRoute(baseRoute, name)` from
`src/metadata/MethodMetadata.ts`.  A string fragment is concatenated after
the normalized base; a pattern fragment with empty base is returned
unchanged; otherwise a new pattern is built from
`"^" + prefix + name.toString().substr(1) + "?$"` with the fragment's
flags (`substr(1)` drops the first character of the slash-delimited
`toString()` form). -/
def appendBaseRoute (baseRoute : String) (name : Route) : Route :=
  match name with
  | .str s => .str (normalizedBase baseRoute ++ s)
  | .pattern source flags =>
      if baseRoute = "" then .pattern source flags
      else .pattern ("^" ++ normalizedBase baseRoute
                       ++ substrOne (regexToString source flags) ++ "?$") flags

/-- A string with its leading `^` stripped, when present. -/
def stripLeadingCaret (s : String) : String :=
  match s.data with
  | '^' :: rest => String.mk rest
  | _ => s

/-- Follows the spec's words (§4.1): for a pattern fragment and non-empty
base, "a new pattern equivalent to `^` + base-prefix + (fragment's source
with its own leading `^` stripped) + `?$`, preserving the fragment's
original match flags".  Stated to compare `appendBaseRoute` against. -/
def specComposedPattern (baseRoute source flags : String) : Route :=
  .pattern ("^" ++ normalizedBase baseRoute ++ stripLeadingCaret source ++ "?$") flags

/-- Parameter source kinds of `ParamMetadata` (`param.type`). -/
inductive ParamKind where
  | body | bodyParam | param | params | session | state
  | query | queries | header | headers | file | files
deriving DecidableEq, Repr

/-- `ParamMetadata`: source kind plus the optional name (absent modelled
as the empty string, which is exactly what the sources test for with
truthiness checks on `param.name`). -/
structure ParamMetadata where
  type : ParamKind
  name : String
deriving DecidableEq, Repr

/-- `ResponseHandlerMetadata`: a declarative response directive.  `value`
and `secondaryValue` carry the payload; `method` is consulted by
`ControllerMetadata.build` (`!handler.method`). -/
structure ResponseHandler where
  type : String
  value : JsVal
  secondaryValue : JsVal
  method : JsVal

/-- The fields of `MethodMetadata` that the modelled operations touch.
`controllerName` is the owning controller's base route
(`controllerMetadata.name`), `name` the declared route fragment, `type`
the HTTP verb.  The derived fields start out `undefined` (`none` for
`fullRoute`) and are filled in by `build`. -/
structure MethodMeta where
  controllerName : String
  name : Route
  type : String
  params : List ParamMetadata
  responseClassTransformOptions : JsVal
  undefinedResultCode : JsVal
  nullResultCode : JsVal
  successHttpCode : JsVal
  fullRoute : Option Route
  headers : List (String × JsVal)

/-- Application options as consumed by `MethodMetadata.build`:
`options.defaults` is a JavaScript value (an object or `undefined`). -/
structure AppOptions where
  defaults : JsVal

/-- The expression `this.options.defaults && this.options.defaults.k`:
JavaScript `&&` yields the left operand when it is falsy, otherwise the
property read on it. -/
def defaultsField (opts : AppOptions) (k : String) : JsVal :=
  if jsTruthy opts.defaults then jsGetD opts.defaults k else opts.defaults

/-- `MethodMetadata.buildFullRoute()`: a pattern fragment is combined with
a truthy (non-empty) controller name through `appendBaseRoute`, otherwise
returned as is; a string fragment is the concatenation of the truthy
parts of controller name and fragment. -/
def buildFullRoute (controllerName : String) (name : Route) : Route :=
  match name with
  | .pattern source flags =>
      if controllerName = "" then .pattern source flags
      else appendBaseRoute controllerName (.pattern source flags)
  | .str s =>
      let path := if controllerName = "" then "" else controllerName
      let path := if s = "" then path else path ++ s
      .str path

/-- The property key a header handler's `value` is used as
(`headers[handler.value] = handler.secondaryValue`); header directives
carry string values, which JavaScript uses verbatim as the key. -/
def jsPropKey : JsVal → String
  | .str s => s
  | _ => ""

/-- `MethodMetadata.buildHeaders(responseHandlers)`: a `content-type`
handler contributes a `Content-type` entry, then every `header` handler
assigns `headers[handler.value] = handler.secondaryValue` in declaration
order (later handlers for the same name overwrite in place). -/
def buildHeaders (responseHandlers : List ResponseHandler) : List (String × JsVal) :=
  let contentTypeHandler := responseHandlers.find? (fun h => h.type == "content-type")
  let headers : List (String × JsVal) :=
    match contentTypeHandler with
    | some h => [("Content-type", h.value)]
    | none => []
  (responseHandlers.filter (fun h => h.type == "header")).foldl
    (fun hs h => setField hs (jsPropKey h.value) h.secondaryValue) headers

/-- `MethodMetadata.build(responseHandlers)`: resolves the derived fields
from the handler list.  `responseClassTransformOptions` and
`successHttpCode` are only assigned when the matching handler exists;
`undefinedResultCode`/`nullResultCode` fall back to
`options.defaults && options.defaults.*`; `fullRoute` and `headers` are
recomputed outright.  (The source also looks up `redirect`,
`rendered-template`, `authorized` handlers and the `body` param, whose
results feed no assignment here.) -/
def build (opts : AppOptions) (m : MethodMeta) (responseHandlers : List ResponseHandler) :
    MethodMeta :=
  let classTransformerResponseHandler :=
    responseHandlers.find? (fun h => h.type == "response-class-transform-options")
  let undefinedResultHandler := responseHandlers.find? (fun h => h.type == "on-undefined")
  let nullResultHandler := responseHandlers.find? (fun h => h.type == "on-null")
  let successCodeHandler := responseHandlers.find? (fun h => h.type == "success-code")
  let _bodyParam := m.params.find? (fun p => p.type == ParamKind.body)
  { m with
    responseClassTransformOptions :=
      match classTransformerResponseHandler with
      | some h => h.value
      | none => m.responseClassTransformOptions
    undefinedResultCode :=
      match undefinedResultHandler with
      | some h => h.value
      | none => defaultsField opts "undefinedResultCode"
    nullResultCode :=
      match nullResultHandler with
      | some h => h.value
      | none => defaultsField opts "nullResultCode"
    successHttpCode :=
      match successCodeHandler with
      | some h => h.value
      | none => m.successHttpCode
    fullRoute := some (buildFullRoute m.controllerName m.name)
    headers := buildHeaders responseHandlers }

/-- `ControllerMetadata`: target class identity (by name), base route
fragment, owned methods. -/
structure ControllerMeta where
  target : String
  name : String
  methods : List MethodMeta

/-- `ControllerMetadata.build(responseHandlers)` from
`src/metadata/ControllerMetadata.ts`: performs a single
`find` over the handlers (`type === "authorized" && !handler.method`)
whose result is bound to a local and never used, and returns. -/
def controllerBuild (c : ControllerMeta) (responseHandlers : List ResponseHandler) :
    ControllerMeta :=
  let _authorizedHandler :=
    responseHandlers.find? (fun h => h.type == "authorized" && !(jsTruthy h.method))
  c

/-- Response-side effects a driver performs while handling a result:
advancing the chain (`next`), assigning a status code, setting a header,
writing a JSON body, a raw `send`, ending the response with binary data,
or piping a stream into the response. -/
inductive Eff where
  | next
  | status (code : JsVal)
  | header (name : String) (value : JsVal)
  | json (body : JsVal)
  | send (body : JsVal)
  | endBinary
  | pipeResp
deriving Repr

/-- Whether an effect advances control to the next handler. -/
def isNextEff : Eff → Bool
  | Eff.next => true
  | _ => false

/-- Number of times control is advanced to the next handler. -/
def countNext (effs : List Eff) : Nat :=
  effs.countP isNextEff

/-- `new Buffer(result).toString("binary")`: the bytes read back as a
latin1 string. -/
def bufferBytes : JsVal → List Nat
  | .buffer bs => bs
  | .uint8array bs => bs
  | _ => []

def bufferToBinaryString (v : JsVal) : String :=
  String.mk ((bufferBytes v).map (fun b => Char.ofNat (b % 256)))

/-- `BaseDriver.transformResult(result, method, action)` from
`src/driver/BaseDriver.ts` (the copy both concrete drivers inherit).
`ctp` stands for the external `classToPlain(result, options)`
collaborator.  Returns the (possibly replaced) result together with a
flag recording whether the stream branch piped into the response.  The
`shouldTransform` computation preserves the source's `&&` short-circuit
order; note that the final `else if (result.pipe instanceof Function)`
reads `result.pipe` unconditionally, which throws on nullish results. -/
def transformResult (useClassTransformer : Bool) (ctp : JsVal → JsVal → JsVal)
    (globalOpts methodOpts : JsVal) (result : JsVal) : Except String (JsVal × Bool) := do
  let shouldTransform ←
    if useClassTransformer && !(jsLooseNull result) then
      if instanceofObject result then do
        let p ← getProp result "pipe"
        pure (!(instanceofUint8Array result || isFunction p))
      else pure false
    else pure false
  if shouldTransform then
    pure (ctp (if jsTruthy methodOpts then methodOpts else globalOpts) result, false)
  else if instanceofBuffer result || instanceofUint8Array result then
    pure (.str (bufferToBinaryString result), false)
  else do
    let p ← getProp result "pipe"
    if isFunction p then pure (result, true)
    else pure (result, false)

/-- `BaseDriver.transformResult` as found in the alternate copy
`src/unnamed/part_001` (lines 111-128): same `shouldTransform` test, but
the untransformed result is returned as is, with no binary conversion and
no pipe. -/
def transformResultAlt (useClassTransformer : Bool) (ctp : JsVal → JsVal → JsVal)
    (globalOpts methodOpts : JsVal) (result : JsVal) : Except String JsVal := do
  let shouldTransform ←
    if useClassTransformer && !(jsLooseNull result) then
      if instanceofObject result then do
        let p ← getProp result "pipe"
        pure (!(instanceofUint8Array result || isFunction p))
      else pure false
    else pure false
  if shouldTransform then
    pure (ctp (if jsTruthy methodOpts then methodOpts else globalOpts) result)
  else
    pure result

/-- The thrown value of `throw new (code)(options)` when a result-code
directive holds an error constructor. -/
def thrownCtor : JsVal → String
  | .fn tag => "thrown: new " ++ tag
  | _ => "thrown: new <non-function>"

/-- Whether `result === options.response` (the response handle). -/
def isResponseHandle : JsVal → Bool
  | .handle tag => tag == "response"
  | _ => false

/-- Whether `result === options.context` (the koa context handle). -/
def isContextHandle : JsVal → Bool
  | .handle tag => tag == "context"
  | _ => false

/-- `ExpressDriver.handleSuccess(result, method, options)` from
`src/driver/express/ExpressDriver.ts` lines 129-195, as the list of
response effects it performs (or the value it throws).  Structure follows
the source: short-circuit when the result is the response object;
`transformResult`; the status-code section; the header loop; the
body-writing section (the `method` guard before `response.json` is always
truthy, `method` being the metadata argument). -/
def expressHandleSuccess (useClassTransformer : Bool) (ctp : JsVal → JsVal → JsVal)
    (globalOpts : JsVal) (m : MethodMeta) (result : JsVal) : Except String (List Eff) := do
  if jsTruthy result && isResponseHandle result then
    pure [Eff.next]
  else do
    let (result, piped) ←
      transformResult useClassTransformer ctp globalOpts m.responseClassTransformOptions result
    let transformEffs := if piped then [Eff.pipeResp] else []
    let statusEffs ←
      if isUndef result && jsTruthy m.undefinedResultCode then
        if isFunction m.undefinedResultCode then
          Except.error (thrownCtor m.undefinedResultCode)
        else pure [Eff.status m.undefinedResultCode]
      else if isNull result then
        if jsTruthy m.nullResultCode then
          if isFunction m.nullResultCode then
            Except.error (thrownCtor m.nullResultCode)
          else pure [Eff.status m.nullResultCode]
        else pure [Eff.status (.num 204)]
      else if jsTruthy m.successHttpCode then
        pure [Eff.status m.successHttpCode]
      else pure []
    let headerEffs := m.headers.map (fun kv => Eff.header kv.1 kv.2)
    let bodyEffs ←
      if isUndef result then
        if jsTruthy m.undefinedResultCode then pure [Eff.next]
        else pure []
      else if isNull result then
        pure [Eff.next]
      else if instanceofBuffer result then
        pure [Eff.endBinary]
      else if instanceofUint8Array result then
        pure [Eff.endBinary]
      else do
        let p ← getProp result "pipe"
        if isFunction p then pure [Eff.pipeResp]
        else pure [Eff.json result, Eff.next]
    pure (transformEffs ++ statusEffs ++ headerEffs ++ bodyEffs)

/-- `KoaDriver.handleSuccess(result, action, options)` from
`src/driver/koa/KoaDriver.ts` lines 127-156: short-circuit when the
result is the response or the context object; `transformResult`; on an
`undefined` result a callable `undefinedResultCode` is thrown (the
remaining undefined/null/status handling is commented out in the source);
the header loop; a final `next()`. -/
def koaHandleSuccess (useClassTransformer : Bool) (ctp : JsVal → JsVal → JsVal)
    (globalOpts : JsVal) (m : MethodMeta) (result : JsVal) : Except String (List Eff) := do
  if jsTruthy result && (isResponseHandle result || isContextHandle result) then
    pure [Eff.next]
  else do
    let (result, piped) ←
      transformResult useClassTransformer ctp globalOpts m.responseClassTransformOptions result
    let transformEffs := if piped then [Eff.pipeResp] else []
    let headerEffs := m.headers.map (fun kv => Eff.header kv.1 kv.2)
    if isUndef result then
      if isFunction m.undefinedResultCode then
        Except.error (thrownCtor m.undefinedResultCode)
      else
        pure (transformEffs ++ headerEffs ++ [Eff.next])
    else
      pure (transformEffs ++ headerEffs ++ [Eff.next])

/-- The live express request handle as `getParamFromRequest` reads it. -/
structure ExpressRequest where
  body : JsVal
  params : JsVal
  query : JsVal
  headers : JsVal
  session : JsVal
  file : JsVal
  files : JsVal

def stateNotSupportedMessage : String :=
  "@State decorators are not supported by express driver."

/-- `ExpressDriver.getParamFromRequest(action, param)` from
`src/driver/express/ExpressDriver.ts` lines 82-124: a switch over
`param.type` reading the matching request field; the `state` case throws
`new Error("@State decorators are not supported by express driver.")`. -/
def expressGetParamFromRequest (req : ExpressRequest) (p : ParamMetadata) :
    Except String JsVal :=
  match p.type with
  | .body => .ok req.body
  | .bodyParam => getProp req.body p.name
  | .param => getProp req.params p.name
  | .params => .ok req.params
  | .session => if p.name ≠ "" then getProp req.session p.name else .ok req.session
  | .state => .error stateNotSupportedMessage
  | .query => getProp req.query p.name
  | .queries => .ok req.query
  | .header => getProp req.headers p.name.toLower
  | .headers => .ok req.headers
  | .file => .ok req.file
  | .files => .ok req.files

/-- What the registered express route handler does with an incoming
request. -/
inductive HandlerAction where
  | passNext
  | invokeCallback
deriving DecidableEq, Repr

/-- The route registration `ExpressDriver.registerMethod` performs:
`route` is the mount path handed to express, `onRequest` the decision the
installed `routeHandler` takes given the incoming request's HTTP verb. -/
structure ExpressRegistration where
  route : String
  onRequest : String → HandlerAction

/-- `ExpressDriver.registerMethod(methodMetadata, executeCallback)` from
`src/driver/express/ExpressDriver.ts` lines 44-71: mounts at
`this.routePrefix + "*"`; the handler skips to `next()` unless
`request.method.toLowerCase()` equals `methodMetadata.type`, in which
case it invokes the supplied callback.  (The body-parser middleware
pushed ahead of the handler does not affect this decision.) -/
def expressRegisterMethod (routePre : String) (m : MethodMeta) : ExpressRegistration :=
  { route := routePre ++ "*"
    onRequest := fun requestMethod =>
      if requestMethod.toLower != m.type then HandlerAction.passNext
      else HandlerAction.invokeCallback }

/-- The data of a JavaScript error object as `processJsonError` reads it:
its `rpcCode` property (present on `RpcError` instances, `undefined`
otherwise), `message` (empty when absent), `stack` (a string or
`undefined`), and its own enumerable keys (`Object.keys(error)`; empty
for a standard `Error`, whose `message`/`stack` are non-enumerable). -/
structure ErrData where
  rpcCode : JsVal
  message : String
  stack : JsVal
  ownKeys : List (String × JsVal)

/-- The three classifications `processJsonError` branches over:
`error instanceof RpcError`, `typeof error === "string"`, and everything
else. -/
inductive ErrInput where
  | rpc (e : ErrData)
  | str (s : String)
  | plain (e : ErrData)

/-- Modelled from the spec: `ServerError` (`src/rpc-error/ServerError.ts`
is not under `src/`).  Per §4.3, "anything else maps to a generic server
error code"; the concrete code value is opaque to every claim, modelled
as the JSON-RPC server error code. -/
def serverErrorRpcCode : JsVal := .num (-32000)

/-- Modelled from the spec: `InternalError`
(`src/rpc-error/InternalError.ts` is not under `src/`).  Per §4.3,
"plain-string errors are wrapped into a generic internal error with a
default code"; the wrapper carries the string as its message and, being
an `Error`, a stack trace. -/
def internalErrorOf (s : String) : ErrData :=
  { rpcCode := .num (-32603)
    message := s
    stack := .str ("InternalError: " ++ s)
    ownKeys := [] }

/-- The block `processJsonError` repeats in each classification branch:
set `code`, include `message` when truthy, create `data`, put the stack
into `data.stack` when present and development mode is on, then copy
every own key except `stack`/`name`/`message`/`rpcCode` into `data`. -/
def classifiedEnvelope (developmentMode : Bool) (code : JsVal) (e : ErrData) : JsVal :=
  let envelope : List (String × JsVal) := [("code", code)]
  let envelope :=
    if e.message ≠ "" then envelope ++ [("message", .str e.message)] else envelope
  let data : List (String × JsVal) :=
    if jsTruthy e.stack && developmentMode then [("stack", e.stack)] else []
  let data :=
    (e.ownKeys.filter (fun kv =>
        !(kv.1 == "stack" || kv.1 == "name" || kv.1 == "message" || kv.1 == "rpcCode"))).foldl
      (fun d kv => setField d kv.1 kv.2) data
  .obj (envelope ++ [("data", .obj data)])

/-- Number of top-level keys (`Object.keys(x).length`). -/
def envelopeKeyCount : JsVal → Nat
  | .obj fs => fs.length
  | _ => 0

/-- `BaseDriver.processJsonError(error)` from `src/driver/BaseDriver.ts`
lines 116-165: classify the error (RpcError / string wrapped into an
`InternalError` / anything else with the generic `ServerError` code),
build the envelope through the repeated block, and return it unless it
ended up with no keys. -/
def processJsonError (developmentMode : Bool) (error : ErrInput) : JsVal :=
  let processedError :=
    match error with
    | .rpc e => classifiedEnvelope developmentMode e.rpcCode e
    | .str s =>
        let e := internalErrorOf s
        classifiedEnvelope developmentMode e.rpcCode e
    | .plain e => classifiedEnvelope developmentMode serverErrorRpcCode e
  if envelopeKeyCount processedError > 0 then processedError else (.undef)

/-- Whether an object has the key at top level. -/
def objHasKey (v : JsVal) (k : String) : Bool :=
  match v with
  | .obj fs => fs.any (fun kv => kv.1 == k)
  | _ => false

/-- Whether the envelope carries a stack entry: a `stack` key at top
level or inside its `data` field. -/
def hasStackEntry (v : JsVal) : Bool :=
  objHasKey v "stack" || objHasKey (jsGetD v "data") "stack"

/-- Token of a restricted anchored regular expression body: a literal
character or an optional literal character (`c?`). -/
inductive RTok where
  | lit (c : Char)
  | opt (c : Char)
deriving DecidableEq, Repr

/-- Full-match semantics for a token list against a character list. -/
def toksMatch : List RTok → List Char → Bool
  | [], [] => true
  | [], _ :: _ => false
  | RTok.lit c :: ts, x :: xs => c == x && toksMatch ts xs
  | RTok.lit _ :: _, [] => false
  | RTok.opt c :: ts, xs =>
      toksMatch ts xs ||
        (match xs with
         | x :: xs' => c == x && toksMatch ts xs'
         | [] => false)

/-- Characters our restricted regex semantics treats as literals; every
other character (any metacharacter) makes the parse fail, so
`regexAccepts` never mis-assigns a meaning. -/
def plainChar (c : Char) : Bool :=
  c.isAlphanum || c == '/' || c == '-' || c == '_'

/-- Parses the body of an anchored pattern into tokens: a literal
character optionally followed by `?`. -/
def parseBody : List Char → Option (List RTok)
  | [] => some []
  | c :: '?' :: rest =>
      if plainChar c then (parseBody rest).map (fun ts => RTok.opt c :: ts) else none
  | c :: rest =>
      if plainChar c then (parseBody rest).map (fun ts => RTok.lit c :: ts) else none

/-- Decides whether the JavaScript regex with the given source accepts the
string, for sources of the shape `^body$` where `body` consists of plain
characters and single-character `?` quantifiers.  Returns `none` when the
source falls outside that fragment. -/
def regexAccepts (source s : String) : Option Bool :=
  match source.toList with
  | '^' :: rest =>
      match rest.getLast? with
      | some '$' => (parseBody rest.dropLast).map (fun ts => toksMatch ts s.toList)
      | _ => none
  | _ => none

/-- Fixed metadata used by concrete evaluations: base `"math"`, fragment
`"add"`, verb `"post"`, no directives resolved yet. -/
def exampleMeta : MethodMeta :=
  { controllerName := "math"
    name := Route.str "add"
    type := "post"
    params := []
    responseClassTransformOptions := .undef
    undefinedResultCode := .undef
    nullResultCode := .undef
    successHttpCode := .undef
    fullRoute := none
    headers := [] }

/-- Error data of a plain `Error("boom")`: no `rpcCode`, a message, a
stack trace, no own enumerable keys. -/
def boomError : ErrData :=
  { rpcCode := .undef
    message := "boom"
    stack := .str "Error: boom"
    ownKeys := [] }


/-- C1 counterexample: composing base `"math"` with the pattern fragment
`/add/` yields source `^/mathadd/?$` (the `substr(1)` keeps the
fragment's trailing `/`), while the claimed formula yields `^/mathadd?$`;
the two patterns are not equivalent: the string `"/mathadd/"` is matched
by the produced pattern and rejected by the claimed one. -/
theorem C1_counterexample :
    appendBaseRoute "math" (.pattern "add" "") = .pattern "^/mathadd/?$" ""
    ∧ specComposedPattern "math" "add" "" = .pattern "^/mathadd?$" ""
    ∧ regexAccepts "^/mathadd/?$" "/mathadd/" = some true
    ∧ regexAccepts "^/mathadd?$" "/mathadd/" = some false :=
  ⟨by decide, by decide, rfl, rfl⟩

theorem substrOne_regexToString (source flags : String) :
    substrOne (regexToString source flags) = source ++ "/" ++ flags := by
  apply String.ext
  simp [substrOne, regexToString, String.data_append]

/-- C1 (amended): for a pattern fragment and non-empty base,
`appendBaseRoute` returns a new pattern carrying the fragment's original
flags whose source is `^` + base-prefix + (the fragment's `toString()`
minus its leading `/` delimiter, i.e. the fragment's source followed by
`/` and its flags) + `?$`; the fragment's own leading `^` is kept, not
stripped. -/
theorem C1_pattern_composition_amended (baseRoute source flags : String)
    (h : baseRoute ≠ "") :
    appendBaseRoute baseRoute (.pattern source flags)
      = .pattern ("^" ++ normalizedBase baseRoute ++ (source ++ "/" ++ flags) ++ "?$")
          flags := by
  simp only [appendBaseRoute, if_neg h, substrOne_regexToString]

/-- C1 witness: the amended composition rule evaluated at base `"math"`
and fragment `/add/`. -/
theorem C1_amended_witness :
    ("math" : String) ≠ ""
    ∧ appendBaseRoute "math" (.pattern "add" "")
        = .pattern ("^" ++ normalizedBase "math" ++ ("add" ++ "/" ++ "") ++ "?$") "" :=
  ⟨by decide, C1_pattern_composition_amended "math" "add" "" (by decide)⟩

theorem transformResult_stream (useCT : Bool) (ctp : JsVal → JsVal → JsVal)
    (g mo : JsVal) (tag : String) :
    transformResult useCT ctp g mo (.stream tag) = .ok (.stream tag, true) := by
  cases useCT <;> rfl

theorem transformResult_buffer (useCT : Bool) (ctp : JsVal → JsVal → JsVal)
    (g mo : JsVal) (bs : List Nat) :
    transformResult useCT ctp g mo (.buffer bs)
      = .ok (.str (bufferToBinaryString (.buffer bs)), false) := by
  cases useCT <;> rfl

theorem transformResult_str (useCT : Bool) (ctp : JsVal → JsVal → JsVal)
    (g mo : JsVal) (s : String) :
    transformResult useCT ctp g mo (.str s) = .ok (.str s, false) := by
  cases useCT <;> rfl

/-- C2 counterexample: on a stream result, `ExpressDriver.handleSuccess`
completes without throwing yet advances control zero times (it pipes the
stream into the response instead), refuting "exactly once on every
execution path". -/
theorem C2_counterexample :
    (expressHandleSuccess false (fun _ v => v) JsVal.undef exampleMeta
        (JsVal.stream "data")).map countNext = Except.ok 0
    ∧ (expressHandleSuccess false (fun _ v => v) JsVal.undef exampleMeta
        (JsVal.stream "data")).map countNext ≠ Except.ok 1 := by
  refine ⟨rfl, ?_⟩
  intro h
  exact absurd (Except.ok.inj h) (by decide)

/-- C2 (amended): `KoaDriver.handleSuccess` advances control exactly once
on every non-throwing execution.  `ExpressDriver.handleSuccess` advances
exactly once on the short-circuit path, on buffer results (already
converted to binary strings by `transformResult`, hence JSON-written) and
on regular results; it advances zero times on stream results (piped, not
forwarded); and on `undefined`/`null` results it throws a `TypeError`
inside `transformResult` without advancing at all. -/
theorem C2_handleSuccess_amended :
    (∀ (useCT : Bool) (ctp : JsVal → JsVal → JsVal) (gOpts : JsVal) (m : MethodMeta)
        (result : JsVal) (effs : List Eff),
        koaHandleSuccess useCT ctp gOpts m result = .ok effs → countNext effs = 1)
    ∧ (∀ (useCT : Bool) (ctp : JsVal → JsVal → JsVal) (gOpts : JsVal) (m : MethodMeta)
        (tag : String),
        (expressHandleSuccess useCT ctp gOpts m (.stream tag)).map countNext = .ok 0)
    ∧ (∀ (useCT : Bool) (ctp : JsVal → JsVal → JsVal) (gOpts : JsVal) (m : MethodMeta)
        (bs : List Nat),
        (expressHandleSuccess useCT ctp gOpts m (.buffer bs)).map countNext = .ok 1)
    ∧ (∀ (useCT : Bool) (ctp : JsVal → JsVal → JsVal) (gOpts : JsVal) (m : MethodMeta)
        (s : String),
        (expressHandleSuccess useCT ctp gOpts m (.str s)).map countNext = .ok 1)
    ∧ (∀ (useCT : Bool) (ctp : JsVal → JsVal → JsVal) (gOpts : JsVal) (m : MethodMeta),
        (expressHandleSuccess useCT ctp gOpts m (.handle "response")).map countNext = .ok 1)
    ∧ (∀ (useCT : Bool) (ctp : JsVal → JsVal → JsVal) (gOpts : JsVal) (m : MethodMeta),
        expressHandleSuccess useCT ctp gOpts m .undef
            = .error "TypeError: Cannot read property pipe of undefined"
        ∧ expressHandleSuccess useCT ctp gOpts m .null
            = .error "TypeError: Cannot read property pipe of null") := by
  refine ⟨?koa, ?stream, ?buffer, ?regular, ?short, ?nullish⟩
  case koa =>
    intro useCT ctp gOpts m result effs h
    unfold koaHandleSuccess at h
    split at h
    · cases h
      rfl
    · cases htr : transformResult useCT ctp gOpts m.responseClassTransformOptions result with
      | error e =>
          rw [htr] at h
          simp only [Bind.bind, Except.bind] at h
          cases h
      | ok vp =>
          obtain ⟨v, piped⟩ := vp
          rw [htr] at h
          simp only [Bind.bind, Except.bind] at h
          split at h
          · split at h
            · cases h
            · cases h
              cases piped <;>
                simp [countNext, List.countP_append, List.countP_cons, List.countP_false,
                  isNextEff, Function.comp]
          · cases h
            cases piped <;>
              simp [countNext, List.countP_append, List.countP_cons, List.countP_false,
                isNextEff, Function.comp]
  case stream =>
    intro useCT ctp gOpts m tag
    unfold expressHandleSuccess
    rw [transformResult_stream]
    by_cases hc : jsTruthy m.successHttpCode = true <;>
      simp [hc, isResponseHandle, isUndef, isNull, instanceofBuffer, instanceofUint8Array,
        getProp, isFunction, Except.map, Bind.bind, Except.bind, pure, Except.pure,
        countNext, List.countP_append, List.countP_cons, List.countP_false, isNextEff,
        Function.comp]
  case buffer =>
    intro useCT ctp gOpts m bs
    unfold expressHandleSuccess
    rw [transformResult_buffer]
    by_cases hc : jsTruthy m.successHttpCode = true <;>
      simp [hc, isResponseHandle, isUndef, isNull, instanceofBuffer, instanceofUint8Array,
        getProp, isFunction, Except.map, Bind.bind, Except.bind, pure, Except.pure,
        countNext, List.countP_append, List.countP_cons, List.countP_false, isNextEff,
        Function.comp]
  case regular =>
    intro useCT ctp gOpts m s
    unfold expressHandleSuccess
    rw [transformResult_str]
    by_cases hc : jsTruthy m.successHttpCode = true <;>
      simp [hc, isResponseHandle, isUndef, isNull, instanceofBuffer, instanceofUint8Array,
        getProp, isFunction, Except.map, Bind.bind, Except.bind, pure, Except.pure,
        countNext, List.countP_append, List.countP_cons, List.countP_false, isNextEff,
        Function.comp]
  case short =>
    intro useCT ctp gOpts m
    rfl
  case nullish =>
    intro useCT ctp gOpts m
    cases useCT <;> exact ⟨rfl, rfl⟩

/-- C2 witness: the koa clause of the amended theorem applied at a
concrete regular result, whose execution emits exactly one advance. -/
theorem C2_amended_witness : countNext [Eff.next] = 1 :=
  C2_handleSuccess_amended.1 false (fun _ v => v) JsVal.undef exampleMeta
    (JsVal.str "hi") [Eff.next] rfl

/-- C3: evaluating `merge` at the failing input.  The first loop computes
the recursive merge of the `"a"` values, but the second loop overwrites
the entry with `obj2["a"]`, so the nested key `"x"` present only on the
left is discarded; the spec's deep-merge policy (`specMergeVal`) keeps
it. -/
theorem C3_merge_discards_nested_left_fields :
    merge (.obj [("a", .obj [("x", .num 1)])]) (.obj [("a", .obj [("y", .num 2)])])
      = .obj [("a", .obj [("y", .num 2)])]
    ∧ getPath (merge (.obj [("a", .obj [("x", .num 1)])])
        (.obj [("a", .obj [("y", .num 2)])])) ["a", "x"] = .undef
    ∧ specMergeVal (.obj [("a", .obj [("x", .num 1)])]) (.obj [("a", .obj [("y", .num 2)])])
        = .obj [("a", .obj [("x", .num 1), ("y", .num 2)])] :=
  ⟨rfl, rfl, rfl⟩

/-- C4: evaluating `transformResult` at the failing inputs.  The copy in
`src/driver/BaseDriver.ts` reads `result.pipe` on the nullish result and
throws a `TypeError` whatever the class-transformer flag; the copy in
`src/unnamed/part_001` returns nullish results untouched, as the spec
states. -/
theorem C4_transformResult_throws_on_nullish :
    ∀ (useCT : Bool) (ctp : JsVal → JsVal → JsVal) (globalOpts methodOpts : JsVal),
      transformResult useCT ctp globalOpts methodOpts .null
          = .error "TypeError: Cannot read property pipe of null"
      ∧ transformResult useCT ctp globalOpts methodOpts .undef
          = .error "TypeError: Cannot read property pipe of undefined"
      ∧ transformResultAlt useCT ctp globalOpts methodOpts .null = .ok .null
      ∧ transformResultAlt useCT ctp globalOpts methodOpts .undef = .ok .undef := by
  intro useCT ctp g mo
  cases useCT <;> exact ⟨rfl, rfl, rfl, rfl⟩

/-- C5: for a non-empty base prefix and a literal string fragment,
`buildFullRoute` is the verbatim concatenation of base and fragment — no
separator injected, no normalization. -/
theorem C5_fullRoute_literal_concat (controllerName s : String)
    (h : controllerName ≠ "") :
    buildFullRoute controllerName (.str s) = .str (controllerName ++ s) := by
  unfold buildFullRoute
  by_cases hs : s = ""
  · simp [h, hs]
  · simp [h, hs]

/-- C5 witness: base `"math"` with fragment `"/add"` yields
`"math/add"`. -/
theorem C5_witness :
    ("math" : String) ≠ "" ∧ buildFullRoute "math" (.str "/add") = .str "math/add" :=
  ⟨by decide, C5_fullRoute_literal_concat "math" "/add" (by decide)⟩

/-- C6: `build` invoked twice with the identical handler input yields the
same `headers`, `fullRoute`, `undefinedResultCode`, `nullResultCode` and
`successHttpCode` as invoking it once — every derived field is recomputed
from the handler list (and the unchanged declaration fields), so nothing
accumulates. -/
theorem C6_build_idempotent (opts : AppOptions) (m : MethodMeta)
    (responseHandlers : List ResponseHandler) :
    (build opts (build opts m responseHandlers) responseHandlers).headers
        = (build opts m responseHandlers).headers
    ∧ (build opts (build opts m responseHandlers) responseHandlers).fullRoute
        = (build opts m responseHandlers).fullRoute
    ∧ (build opts (build opts m responseHandlers) responseHandlers).undefinedResultCode
        = (build opts m responseHandlers).undefinedResultCode
    ∧ (build opts (build opts m responseHandlers) responseHandlers).nullResultCode
        = (build opts m responseHandlers).nullResultCode
    ∧ (build opts (build opts m responseHandlers) responseHandlers).successHttpCode
        = (build opts m responseHandlers).successHttpCode := by
  refine ⟨rfl, rfl, rfl, rfl, ?_⟩
  cases hs : responseHandlers.find? (fun h => h.type == "success-code") <;>
    simp [build, hs]

/-- C7: for any plain `Error` (classified by the generic branch, with no
own enumerable keys — `Object.keys` of a standard `Error` is empty) that
carries a truthy stack trace, the envelope produced by `processJsonError`
contains a stack entry exactly when development mode is on. -/
theorem C7_stack_entry_iff_development (dev : Bool) (e : ErrData)
    (hplain : e.ownKeys = []) (h : jsTruthy e.stack = true) :
    hasStackEntry (processJsonError dev (.plain e)) = dev := by
  cases dev <;> by_cases hm : e.message = "" <;>
    simp [hplain, h, hm, processJsonError, classifiedEnvelope, hasStackEntry, objHasKey,
      jsGetD, envelopeKeyCount, List.find?]

/-- C7 witness: the rule evaluated on a plain `Error("boom")` with a
stack trace, in development mode and out of it. -/
theorem C7_witness :
    jsTruthy boomError.stack = true
    ∧ hasStackEntry (processJsonError true (.plain boomError)) = true
    ∧ hasStackEntry (processJsonError false (.plain boomError)) = false :=
  ⟨rfl, C7_stack_entry_iff_development true boomError rfl rfl,
    C7_stack_entry_iff_development false boomError rfl rfl⟩

/-- C8: on the express driver, extracting a parameter whose source kind
is the application-state kind throws an error whose message names the
unsupported feature (`@State`) and the driver (`express`), for every
request handle and parameter name. -/
theorem C8_state_extraction_unsupported (req : ExpressRequest) (name : String) :
    expressGetParamFromRequest req ⟨ParamKind.state, name⟩ = .error stateNotSupportedMessage
    ∧ "State".toList <:+: stateNotSupportedMessage.toList
    ∧ "express".toList <:+: stateNotSupportedMessage.toList :=
  ⟨rfl, by decide, by decide⟩

/-- C9: `ExpressDriver.registerMethod` mounts the handler at
`routePrefix + "*"` — a path independent of the method's composed
`fullRoute` — and the installed handler invokes the supplied callback
exactly when the incoming request's lower-cased HTTP verb equals the
method's declared verb, passing to `next()` otherwise. -/
theorem C9_register_wildcard_and_verb_guard (routePre : String) (m m' : MethodMeta)
    (requestMethod : String) :
    (expressRegisterMethod routePre m).route = routePre ++ "*"
    ∧ (expressRegisterMethod routePre m).route = (expressRegisterMethod routePre m').route
    ∧ ((expressRegisterMethod routePre m).onRequest requestMethod
          = HandlerAction.invokeCallback
        ↔ requestMethod.toLower = m.type) := by
  refine ⟨rfl, rfl, ?_⟩
  by_cases hv : requestMethod.toLower = m.type <;>
    simp [expressRegisterMethod, hv]

/-- C10: `ControllerMetadata.build` leaves the controller metadata
entirely unchanged — the `authorized`-handler lookup it performs is
discarded, so target, name and methods are untouched. -/
theorem C10_controller_build_is_frame (c : ControllerMeta)
    (responseHandlers : List ResponseHandler) :
    controllerBuild c responseHandlers = c
    ∧ (controllerBuild c responseHandlers).target = c.target
    ∧ (controllerBuild c responseHandlers).name = c.name
    ∧ (controllerBuild c responseHandlers).methods = c.methods :=
  ⟨rfl, rfl, rfl, rfl⟩

end RpcControllers
